import Mathlib

/-!
Verification of the AFEA-Bert relation-extraction task
(ark_nlp/model/re/afea_bert/afea_relation_extraction_task.py).

The file shallowly embeds the task-specific hook bodies of `AFEARETask`:
tensors are lists of integers (a 2-D tensor is a list of rows), python
floats are rationals, and operations that raise at runtime (ragged
`torch.tensor`, `torch.max` over an empty dimension, `torch.cat` of an
empty tensor list, integer division by zero) return `Option`/`Except`
values instead.
-/

/-- Index of the first maximal element of a row, as computed by both
`torch.max(logits, 1)` (indices component) and `torch.argmax(·, -1)`:
for several maximal values the first index is returned.  An empty row is
mapped to 0; callers guard the empty case where torch would raise. -/
def argmaxList (row : List Int) : Nat :=
  match row with
  | [] => 0
  | x :: xs =>
    (xs.foldl
      (fun acc v =>
        match acc with
        | (i, best, bestIdx) =>
          if best < v then (i + 1, v, i) else (i + 1, best, bestIdx))
      ((1 : Nat), x, (0 : Nat))).2.2

/-- Number of positions where the prediction equals the label:
`torch.sum(preds == labels).item()` for two equal-length 1-D tensors.
(Size-1 broadcasting of `==` is not modelled; callers require equal
lengths, as all claims do.) -/
def matchCount (preds : List Nat) (labels : List Int) : Nat :=
  (preds.zip labels).countP (fun pl => ((pl.1 : Int) == pl.2))

/-- A row matrix is a valid 2-D tensor when all rows have equal length. -/
def rectangular (rows : List (List Int)) : Bool :=
  match rows with
  | [] => true
  | r :: rs => rs.all (fun x => x.length == r.length)

/-- `torch.tensor` applied to a list of integer lists: succeeds exactly on
rectangular input, otherwise raises (modelled as `none`). -/
def torchTensor2d (rows : List (List Int)) : Option (List (List Int)) :=
  if rectangular rows then some rows else none

/-- One InputFeatures record as consumed by `_train_collate_fn`.  The
auxiliary annotations `relations_idx` and `entity_pair` are structured
values the collator passes through untouched; their element type is
irrelevant here and modelled as integer lists. -/
structure InputFeature where
  input_ids : List Int
  attention_mask : List Int
  token_type_ids : List Int
  position_ids : List Int
  relations_idx : List Int
  entity_pair : List Int
  label_ids : List Int
deriving DecidableEq, Repr

/-- The dictionary of tensors returned by `_train_collate_fn`. -/
structure BatchTensors where
  input_ids : List (List Int)
  attention_mask : List (List Int)
  token_type_ids : List (List Int)
  position_ids : List (List Int)
  relations_idx : List (List Int)
  entity_pair : List (List Int)
  label_ids : List Int
deriving DecidableEq, Repr

/-- `AFEARETask._train_collate_fn`: stacks the four fixed-length fields
into 2-D tensors (raising, i.e. `none`, on ragged input), keeps
`relations_idx` and `entity_pair` as per-example lists, and flattens all
`label_ids` across the batch into one 1-D tensor. -/
def trainCollateFn (batch : List InputFeature) : Option BatchTensors := do
  let input_ids ← torchTensor2d (batch.map (fun f => f.input_ids))
  let attention_mask ← torchTensor2d (batch.map (fun f => f.attention_mask))
  let token_type_ids ← torchTensor2d (batch.map (fun f => f.token_type_ids))
  let position_ids ← torchTensor2d (batch.map (fun f => f.position_ids))
  let relations_idx := batch.map (fun f => f.relations_idx)
  let entity_pair := batch.map (fun f => f.entity_pair)
  let label_ids := (batch.map (fun f => f.label_ids)).flatten
  some ⟨input_ids, attention_mask, token_type_ids, position_ids,
        relations_idx, entity_pair, label_ids⟩

/-- `AFEARETask._evaluate_collate_fn`: the body is
`return self._train_collate_fn(batch)`. -/
def evaluateCollateFn (batch : List InputFeature) : Option BatchTensors :=
  trainCollateFn batch

/-- Well-formedness the claims assume of a batch: each of the four
fixed-length fields has the same length in every record. -/
def wellFormedBatch (batch : List InputFeature) : Bool :=
  rectangular (batch.map (fun f => f.input_ids))
  && rectangular (batch.map (fun f => f.attention_mask))
  && rectangular (batch.map (fun f => f.token_type_ids))
  && rectangular (batch.map (fun f => f.position_ids))

/-- The `self.logs` training counters this file touches. -/
structure TrainLogs where
  global_step : Nat
  epoch_step : Nat
  epoch_loss : Rat
  epoch_evaluation : Rat
deriving DecidableEq, Repr

/-- The `self.evaluate_logs` state accumulated over one evaluation pass. -/
structure EvaluateLogs where
  eval_loss : Rat
  eval_acc : Nat
  eval_step : Nat
  eval_example : Nat
  labels : List (List Int)
  logits : List (List (List Int))
deriving DecidableEq, Repr

/-- `AFEARETask._on_optimize_record`: increments `global_step` and
`epoch_step`; when verbose, computes `preds = torch.max(logits, 1)` and
adds `torch.sum(preds == inputs['label_ids']).item() / len(logits[1])`
to `epoch_evaluation`.  Note the denominator is the length of row 1 of
the logits, i.e. the number of classes.  `none` models the runtime
errors: `logits[1]` needs at least two rows, `torch.max` needs non-empty
rows, and the elementwise `==` needs equal lengths. -/
def onOptimizeRecord (logs : TrainLogs) (labelIds : List Int)
    (logits : List (List Int)) (verbose : Bool) : Option TrainLogs :=
  let logs := { logs with global_step := logs.global_step + 1,
                          epoch_step := logs.epoch_step + 1 }
  if verbose then
    if logits.all (fun row => !row.isEmpty) then
      let preds := logits.map argmaxList
      if preds.length == labelIds.length then
        match logits with
        | _ :: row1 :: _ =>
          some { logs with epoch_evaluation :=
            logs.epoch_evaluation
              + (matchCount preds labelIds : Rat) / (row1.length : Rat) }
        | _ => none
      else none
    else none
  else some logs

/-- `AFEARETask._on_evaluate_begin_record`: resets every evaluate-logs
field, whatever the previous pass left behind. -/
def onEvaluateBeginRecord (_prev : EvaluateLogs) : EvaluateLogs :=
  { eval_loss := 0
    eval_acc := 0
    eval_step := 0
    eval_example := 0
    labels := []
    logits := [] }

/-- The data one evaluation step sees: the batch's flattened `label_ids`,
the logits returned by the model for the batch, and the scalar loss
`_get_evaluate_loss` obtains from the injected loss function. -/
structure EvalBatch where
  labelIds : List Int
  logits : List (List Int)
  loss : Rat
deriving DecidableEq, Repr

/-- Shape conditions under which the torch operations of
`_on_evaluate_step_end` succeed: the elementwise `preds == labels.data`
needs as many logit rows as labels, and `torch.max(logits, 1)` needs
non-empty rows. -/
def batchOk (b : EvalBatch) : Bool :=
  b.logits.length == b.labelIds.length
  && b.logits.all (fun row => !row.isEmpty)

/-- `AFEARETask._on_evaluate_step_end`: adds the batch loss, appends the
label and logit tensors to the buffers, and updates the example, step and
correct-prediction counters using `preds = torch.max(logits, 1)`. -/
def onEvaluateStepEnd (s : EvaluateLogs) (b : EvalBatch) :
    Option EvaluateLogs :=
  if batchOk b then
    let preds := b.logits.map argmaxList
    some { eval_loss := s.eval_loss + b.loss
           eval_acc := s.eval_acc + matchCount preds b.labelIds
           eval_step := s.eval_step + 1
           eval_example := s.eval_example + b.labelIds.length
           labels := s.labels ++ [b.labelIds]
           logits := s.logits ++ [b.logits] }
  else none

/-- One whole evaluation pass: `_on_evaluate_begin_record` from whatever
state the previous pass left, then `_on_evaluate_step_end` once per
batch, in order. -/
def runEvaluatePass (prev : EvaluateLogs) (bs : List EvalBatch) :
    Option EvaluateLogs :=
  bs.foldlM onEvaluateStepEnd (onEvaluateBeginRecord prev)

/-- The distinct runtime failures `_on_evaluate_epoch_end` can raise:
`torch.cat` applied to an empty list of tensors (RuntimeError), and
integer/float division by zero (ZeroDivisionError). -/
inductive EvalEndError where
  | emptyConcat
  | divisionByZero
deriving DecidableEq, Repr

/-- What `_on_evaluate_epoch_end` computes from the buffers: the
concatenated labels, the argmax predictions over the concatenated
logits, and the two printed averages.  (The macro-F1 score, per-class
report and confusion matrix are delegated to the external sklearn
metrics routines and carry no claim here.) -/
structure EvalReport where
  labelsCat : List Int
  predsCat : List Nat
  avgLoss : Rat
  avgAcc : Rat
deriving DecidableEq, Repr

/-- `AFEARETask._on_evaluate_epoch_end` (with `is_evaluate_print`):
first `torch.cat` over the label and logit buffers — raising
`emptyConcat` when a buffer is empty — then argmax predictions, then the
printed averages `eval_loss / eval_step` and `eval_acc / eval_example`,
raising `divisionByZero` when a denominator is zero. -/
def onEvaluateEpochEnd (s : EvaluateLogs) : Except EvalEndError EvalReport :=
  match s.labels with
  | [] => .error .emptyConcat
  | _ =>
    match s.logits with
    | [] => .error .emptyConcat
    | _ =>
      let labelsCat := s.labels.flatten
      let predsCat := (s.logits.flatten).map argmaxList
      if s.eval_step == 0 then .error .divisionByZero
      else if s.eval_example == 0 then .error .divisionByZero
      else .ok { labelsCat := labelsCat
                 predsCat := predsCat
                 avgLoss := s.eval_loss / (s.eval_step : Rat)
                 avgAcc := (s.eval_acc : Rat) / (s.eval_example : Rat) }

/-- `AFEARETask._get_train_loss`: destructures the model outputs as
`(logits, entity_pair)`, calls the injected `_compute_loss`, then (only
on success — an exception in the loss routine propagates before the next
line runs) calls the `_compute_loss_record` bookkeeping callback once.
The callback is modelled by its invocation count. -/
def getTrainLoss (computeLoss : BatchTensors → List (List Int) → Except String Rat)
    (lossRecordCalls : Nat) (inputs : BatchTensors)
    (outputs : List (List Int) × List (List Int)) :
    Except String (Nat × (List (List Int) × Rat)) :=
  let logits := outputs.1
  match computeLoss inputs logits with
  | .error e => .error e
  | .ok loss => .ok (lossRecordCalls + 1, (logits, loss))

/-- The mutable state of the task object: the two log dictionaries.
`_train_collate_fn` is a method on this object; embedding it with the
explicit `self` makes its statelessness a statable property. -/
structure TaskSelf where
  logs : TrainLogs
  evaluateLogs : EvaluateLogs
deriving DecidableEq, Repr

/-- `_train_collate_fn` as a method: the body never reads or writes
`self`, so the embedded method returns `self` unchanged next to the
collated batch. -/
def trainCollateFnMethod (self : TaskSelf) (batch : List InputFeature) :
    TaskSelf × Option BatchTensors :=
  (self, trainCollateFn batch)

/-- The wrapped model as far as `AFEARETask.__init__` is concerned:
`none` models a module without a `task` attribute. -/
structure AFEAModule where
  task : Option String
deriving DecidableEq, Repr

/-- The module-mutating part of `AFEARETask.__init__` (after the external
base-class constructor): `if hasattr(self.module, 'task') is False:
self.module.task = 'TokenLevel'`. -/
def afeaInitModuleTask (m : AFEAModule) : AFEAModule :=
  if m.task.isNone then { m with task := some "TokenLevel" } else m

/-- A concrete well-formed evaluation batch used by witnesses. -/
def evalBatchEx : EvalBatch :=
  { labelIds := [0, 1], logits := [[5, 0], [0, 5]], loss := 1 }

/-- The evaluate-logs state reached by a pass over `[evalBatchEx]`. -/
def evalLogsEx : EvaluateLogs :=
  { eval_loss := 1
    eval_acc := 2
    eval_step := 1
    eval_example := 2
    labels := [[0, 1]]
    logits := [[[5, 0], [0, 5]]] }

/-- A second concrete evaluation batch: one correct and one incorrect
prediction. -/
def evalBatchEx2 : EvalBatch :=
  { labelIds := [0, 1], logits := [[5, 0], [5, 0]], loss := 2 }

/-- The evaluate-logs state reached by a pass over `[evalBatchEx2]`. -/
def evalLogsEx2 : EvaluateLogs :=
  { eval_loss := 2
    eval_acc := 1
    eval_step := 1
    eval_example := 2
    labels := [[0, 1]]
    logits := [[[5, 0], [5, 0]]] }

/-- A concrete well-formed two-record batch used by witnesses. -/
def featureBatchEx : List InputFeature :=
  [{ input_ids := [1, 2], attention_mask := [1, 1], token_type_ids := [0, 0],
     position_ids := [0, 1], relations_idx := [0], entity_pair := [3],
     label_ids := [0, 2] },
   { input_ids := [3, 4], attention_mask := [1, 0], token_type_ids := [0, 0],
     position_ids := [0, 1], relations_idx := [1], entity_pair := [4],
     label_ids := [1] }]

/-- A loss routine that always succeeds, used by the witness. -/
def constLossFn : BatchTensors → List (List Int) → Except String Rat :=
  fun _ _ => .ok 5

/-- An empty batch dictionary, used by the witness. -/
def emptyBatchTensors : BatchTensors :=
  { input_ids := [], attention_mask := [], token_type_ids := [],
    position_ids := [], relations_idx := [], entity_pair := [], label_ids := [] }

/-! ## Helper lemmas shared by several claims -/

theorem stepEnd_some (s : EvaluateLogs) (b : EvalBatch) (s' : EvaluateLogs)
    (h : onEvaluateStepEnd s b = some s') :
    batchOk b = true
  ∧ s' = { eval_loss := s.eval_loss + b.loss
           eval_acc := s.eval_acc + matchCount (b.logits.map argmaxList) b.labelIds
           eval_step := s.eval_step + 1
           eval_example := s.eval_example + b.labelIds.length
           labels := s.labels ++ [b.labelIds]
           logits := s.logits ++ [b.logits] } := by
  unfold onEvaluateStepEnd at h
  by_cases hok : batchOk b = true
  · simp only [hok, if_true] at h
    exact ⟨hok, (Option.some.inj h).symm⟩
  · simp [hok] at h

theorem foldlM_stepEnd_post (bs : List EvalBatch) (s0 s : EvaluateLogs)
    (h : bs.foldlM onEvaluateStepEnd s0 = some s) :
    (∀ b ∈ bs, batchOk b = true)
  ∧ s.labels = s0.labels ++ bs.map (fun b => b.labelIds)
  ∧ s.logits = s0.logits ++ bs.map (fun b => b.logits)
  ∧ s.eval_step = s0.eval_step + bs.length
  ∧ s.eval_example = s0.eval_example + (bs.map (fun b => b.labelIds.length)).sum
  ∧ s.eval_acc = s0.eval_acc
      + (bs.map (fun b => matchCount (b.logits.map argmaxList) b.labelIds)).sum := by
  induction bs generalizing s0 with
  | nil =>
    simp only [List.foldlM_nil] at h
    cases Option.some.inj h
    simp
  | cons b bs ih =>
    rw [List.foldlM_cons] at h
    cases hstep : onEvaluateStepEnd s0 b with
    | none => rw [hstep] at h; simp at h
    | some s1 =>
      rw [hstep] at h
      simp only [Option.bind_eq_bind, Option.some_bind] at h
      obtain ⟨hok, hs1⟩ := stepEnd_some s0 b s1 hstep
      obtain ⟨hall, hlab, hlog, hstp, hex, hacc⟩ := ih s1 h
      subst hs1
      refine ⟨?_, ?_, ?_, ?_, ?_, ?_⟩
      · intro x hx
        rcases List.mem_cons.mp hx with hxb | hx
        · exact hxb ▸ hok
        · exact hall x hx
      · rw [hlab]; simp
      · rw [hlog]; simp
      · rw [hstp]; simp; omega
      · rw [hex]; simp; omega
      · rw [hacc]; simp; omega

theorem matchCount_append (p1 p2 : List Nat) (l1 l2 : List Int)
    (h : p1.length = l1.length) :
    matchCount (p1 ++ p2) (l1 ++ l2) = matchCount p1 l1 + matchCount p2 l2 := by
  unfold matchCount
  rw [List.zip_append h, List.countP_append]

theorem matchCount_le_length (p : List Nat) (l : List Int) :
    matchCount p l ≤ l.length := by
  unfold matchCount
  calc (p.zip l).countP (fun pl => ((pl.1 : Int) == pl.2))
      ≤ (p.zip l).length := List.countP_le_length _
    _ = min p.length l.length := List.length_zip p l
    _ ≤ l.length := min_le_right _ _

theorem batchOk_length (b : EvalBatch) (hb : batchOk b = true) :
    (b.logits.map argmaxList).length = b.labelIds.length := by
  unfold batchOk at hb
  simp only [Bool.and_eq_true, beq_iff_eq] at hb
  simp [hb.1]

theorem matchCount_flatten (bs : List EvalBatch)
    (h : ∀ b ∈ bs, batchOk b = true) :
    matchCount (((bs.map (fun b => b.logits)).flatten).map argmaxList)
        ((bs.map (fun b => b.labelIds)).flatten)
      = (bs.map (fun b => matchCount (b.logits.map argmaxList) b.labelIds)).sum := by
  induction bs with
  | nil => rfl
  | cons b bs ih =>
    have hb : batchOk b = true := h b (List.mem_cons_self b bs)
    simp only [List.map_cons, List.flatten_cons, List.map_append, List.sum_cons]
    rw [matchCount_append _ _ _ _ (batchOk_length b hb),
        ih (fun x hx => h x (List.mem_cons_of_mem b hx))]

/-! ## Claim theorems -/

/-- Claim C1 (code-bug evidence): `_on_optimize_record` does not add the
fraction of correct top-1 predictions.  On a verbose step with three
examples, two classes and every prediction correct, it adds
`3 / len(logits[1]) = 3/2` — the correct count divided by the number of
classes — instead of the claimed `3/3 = 1`; the added amount even
exceeds 1, so it cannot be a fraction of the batch. -/
theorem onOptimizeRecord_divides_by_class_count :
    onOptimizeRecord ⟨0, 0, 0, 0⟩ [0, 0, 0] [[5, 0], [5, 0], [5, 0]] true
      = some ⟨1, 1, 0, 3 / 2⟩
  ∧ ((3 : Rat) / 2 ≠ 3 / 3) ∧ (1 : Rat) < 3 / 2 := by
  have hm : matchCount (List.map argmaxList [[5, 0], [5, 0], [5, 0]]) [0, 0, 0] = 3 := by
    decide
  refine ⟨?_, by norm_num, by norm_num⟩
  simp only [onOptimizeRecord, hm]
  norm_num

/-- Claim C9: `_evaluate_collate_fn` returns exactly
`_train_collate_fn(batch)`; the two collation paths are one function. -/
theorem evaluateCollateFn_eq_trainCollateFn (batch : List InputFeature) :
    evaluateCollateFn batch = trainCollateFn batch := rfl

/-- Claim C8: `_on_evaluate_begin_record` puts every evaluate-logs field
into its initial state, regardless of the state left by a previous
pass. -/
theorem onEvaluateBeginRecord_resets (prev : EvaluateLogs) :
    (onEvaluateBeginRecord prev).eval_loss = 0
  ∧ (onEvaluateBeginRecord prev).eval_acc = 0
  ∧ (onEvaluateBeginRecord prev).eval_step = 0
  ∧ (onEvaluateBeginRecord prev).eval_example = 0
  ∧ (onEvaluateBeginRecord prev).labels = []
  ∧ (onEvaluateBeginRecord prev).logits = [] :=
  ⟨rfl, rfl, rfl, rfl, rfl, rfl⟩

/-- Claim C6: `_train_collate_fn` is pure — the embedded method leaves
the task state untouched, its output does not depend on the task state,
and collating the same batch twice yields the identical result. -/
theorem trainCollateFn_pure (s t : TaskSelf) (batch : List InputFeature) :
    (trainCollateFnMethod s batch).1 = s
  ∧ (trainCollateFnMethod s batch).2 = (trainCollateFnMethod t batch).2
  ∧ trainCollateFnMethod s batch = (s, trainCollateFn batch) :=
  ⟨rfl, rfl, rfl⟩

/-- Claim C10: the constructor gives the wrapped module the task value
`TokenLevel` exactly when the module has no `task` attribute; an
existing value is kept unchanged. -/
theorem afeaInit_task_default (m : AFEAModule) :
    (m.task = none → (afeaInitModuleTask m).task = some "TokenLevel")
  ∧ (∀ v, m.task = some v → (afeaInitModuleTask m).task = some v) := by
  constructor
  · intro h; simp [afeaInitModuleTask, h]
  · intro v h; simp [afeaInitModuleTask, h]

/-- Witness for C10 at a module without and a module with a `task`
attribute. -/
theorem afeaInit_task_default_witness :
    (afeaInitModuleTask { task := none }).task = some "TokenLevel"
  ∧ (afeaInitModuleTask { task := some "SeqLevel" }).task = some "SeqLevel" :=
  ⟨(afeaInit_task_default { task := none }).1 rfl,
   (afeaInit_task_default { task := some "SeqLevel" }).2 "SeqLevel" rfl⟩

/-- Claim C7: `_get_train_loss` returns the first component of the model
outputs together with the loss produced by the injected routine and
bumps the loss-record callback count by exactly one; a failure of the
loss routine propagates unchanged and the callback is not reached. -/
theorem getTrainLoss_contract
    (computeLoss : BatchTensors → List (List Int) → Except String Rat)
    (n : Nat) (inputs : BatchTensors)
    (outputs : List (List Int) × List (List Int)) :
    (∀ l, computeLoss inputs outputs.1 = .ok l →
        getTrainLoss computeLoss n inputs outputs = .ok (n + 1, (outputs.1, l)))
  ∧ (∀ e, computeLoss inputs outputs.1 = .error e →
        getTrainLoss computeLoss n inputs outputs = .error e) := by
  constructor
  · intro l h; simp [getTrainLoss, h]
  · intro e h; simp [getTrainLoss, h]

/-- Witness for C7 with a constant loss routine. -/
theorem getTrainLoss_contract_witness :
    getTrainLoss constLossFn 0 emptyBatchTensors ([], []) = .ok (1, ([], 5)) :=
  (getTrainLoss_contract constLossFn 0 emptyBatchTensors ([], [])).1 5 rfl

/-- Claim C5 (counterexample): on the zero-step state,
`_on_evaluate_epoch_end` fails at `torch.cat` over the empty buffer
list — not with a division-by-zero error. -/
theorem zeroStep_error_is_emptyConcat_not_divZero :
    onEvaluateEpochEnd (onEvaluateBeginRecord ⟨9, 9, 9, 9, [[1]], [[[1]]]⟩)
      = .error .emptyConcat
  ∧ EvalEndError.emptyConcat ≠ EvalEndError.divisionByZero :=
  ⟨rfl, by decide⟩

/-- Claim C5 (amended): after a zero-step evaluation pass,
`_on_evaluate_epoch_end` fails — with the RuntimeError `torch.cat`
raises on the empty buffer list, before any division is attempted —
rather than returning a silent wrong value. -/
theorem zeroStepPass_epochEnd_fails (prev : EvaluateLogs) :
    runEvaluatePass prev [] = some (onEvaluateBeginRecord prev)
  ∧ onEvaluateEpochEnd (onEvaluateBeginRecord prev) = .error .emptyConcat :=
  ⟨rfl, rfl⟩

/-- Claim C3: on a non-empty batch of well-formed records, collation
succeeds; each stacked tensor has first dimension `len(batch)`, and the
flattened label vector has length the sum of per-record label counts. -/
theorem trainCollateFn_shapes (batch : List InputFeature)
    (_hne : batch ≠ []) (hwf : wellFormedBatch batch = true) :
    ∃ t, trainCollateFn batch = some t
      ∧ t.input_ids.length = batch.length
      ∧ t.attention_mask.length = batch.length
      ∧ t.token_type_ids.length = batch.length
      ∧ t.position_ids.length = batch.length
      ∧ t.label_ids.length = (batch.map (fun f => f.label_ids.length)).sum := by
  simp only [wellFormedBatch, Bool.and_eq_true] at hwf
  obtain ⟨⟨⟨h1, h2⟩, h3⟩, h4⟩ := hwf
  refine ⟨⟨batch.map (fun f => f.input_ids), batch.map (fun f => f.attention_mask),
          batch.map (fun f => f.token_type_ids), batch.map (fun f => f.position_ids),
          batch.map (fun f => f.relations_idx), batch.map (fun f => f.entity_pair),
          (batch.map (fun f => f.label_ids)).flatten⟩, ?_, ?_, ?_, ?_, ?_, ?_⟩
  · simp [trainCollateFn, torchTensor2d, h1, h2, h3, h4]
  · simp
  · simp
  · simp
  · simp
  · simp only [List.length_flatten, List.map_map]
    rfl

/-- Witness for C3 on a concrete two-record batch. -/
theorem trainCollateFn_shapes_witness :
    ∃ t, trainCollateFn featureBatchEx = some t
      ∧ t.input_ids.length = featureBatchEx.length
      ∧ t.attention_mask.length = featureBatchEx.length
      ∧ t.token_type_ids.length = featureBatchEx.length
      ∧ t.position_ids.length = featureBatchEx.length
      ∧ t.label_ids.length
          = (featureBatchEx.map (fun f => f.label_ids.length)).sum :=
  trainCollateFn_shapes featureBatchEx (by decide) (by decide)

/-- Claim C4: for an evaluation pass `begin; step B1; ...; step Bn`, the
label buffer lists the batches' `label_ids` in call order, so its
concatenation is the concatenation of the per-batch labels, and
`eval_example` is the sum of the per-batch label counts. -/
theorem evalPass_label_buffer (prev : EvaluateLogs) (bs : List EvalBatch)
    (s : EvaluateLogs) (h : runEvaluatePass prev bs = some s) :
    s.labels = bs.map (fun b => b.labelIds)
  ∧ s.labels.flatten = (bs.map (fun b => b.labelIds)).flatten
  ∧ s.eval_example = (bs.map (fun b => b.labelIds.length)).sum := by
  obtain ⟨-, hlab, -, -, hex, -⟩ :=
    foldlM_stepEnd_post bs (onEvaluateBeginRecord prev) s h
  simp only [onEvaluateBeginRecord, List.nil_append, Nat.zero_add] at hlab hex
  exact ⟨hlab, by rw [hlab], hex⟩

/-- Witness for C4 on a one-batch pass started from a dirty state. -/
theorem evalPass_label_buffer_witness :
    runEvaluatePass ⟨9, 9, 9, 9, [[1]], [[[1]]]⟩ [evalBatchEx] = some evalLogsEx
  ∧ (evalLogsEx.labels = [evalBatchEx].map (fun b => b.labelIds)
     ∧ evalLogsEx.labels.flatten
         = ([evalBatchEx].map (fun b => b.labelIds)).flatten
     ∧ evalLogsEx.eval_example
         = ([evalBatchEx].map (fun b => b.labelIds.length)).sum) := by
  have hok : batchOk evalBatchEx = true := by decide
  have hm : matchCount (evalBatchEx.logits.map argmaxList) evalBatchEx.labelIds = 2 := by
    decide
  have hrun : runEvaluatePass ⟨9, 9, 9, 9, [[1]], [[[1]]]⟩ [evalBatchEx]
      = some evalLogsEx := by
    simp only [runEvaluatePass, List.foldlM_cons, List.foldlM_nil,
      onEvaluateBeginRecord, onEvaluateStepEnd, hok, if_true, hm]
    simp [evalBatchEx, evalLogsEx]
  exact ⟨hrun,
    evalPass_label_buffer ⟨9, 9, 9, 9, [[1]], [[[1]]]⟩ [evalBatchEx] evalLogsEx hrun⟩

/-- Claim C2: after an evaluation pass of one or more steps,
`eval_acc / eval_example` lies in [0, 1]; `eval_acc` — the sum of the
per-batch `torch.max` correct-prediction counts — equals the number of
agreements between the argmax predictions taken over the concatenated
logits (as `_on_evaluate_epoch_end` computes them) and the concatenated
labels, and `eval_example` is the length of the concatenated labels, so
the ratio is exactly the exact-match rate. -/
theorem evalPass_accuracy (prev : EvaluateLogs) (bs : List EvalBatch)
    (s : EvaluateLogs) (h : runEvaluatePass prev bs = some s)
    (hpos : 0 < s.eval_example) :
    (0 : Rat) ≤ (s.eval_acc : Rat) / (s.eval_example : Rat)
  ∧ (s.eval_acc : Rat) / (s.eval_example : Rat) ≤ 1
  ∧ s.eval_acc = matchCount ((s.logits.flatten).map argmaxList) (s.labels.flatten)
  ∧ s.eval_example = (s.labels.flatten).length := by
  obtain ⟨hall, hlab, hlog, -, hex, hacc⟩ :=
    foldlM_stepEnd_post bs (onEvaluateBeginRecord prev) s h
  simp only [onEvaluateBeginRecord, List.nil_append, Nat.zero_add] at hlab hlog hex hacc
  have hmatch : s.eval_acc
      = matchCount ((s.logits.flatten).map argmaxList) (s.labels.flatten) := by
    rw [hlab, hlog, hacc, matchCount_flatten bs hall]
  have hlen : s.eval_example = (s.labels.flatten).length := by
    rw [hlab, hex, List.length_flatten, List.map_map]
    rfl
  have hle : s.eval_acc ≤ s.eval_example := by
    rw [hacc, hex]
    exact List.sum_le_sum (fun b _ => matchCount_le_length _ _)
  have hpos' : (0 : Rat) < (s.eval_example : Rat) := by exact_mod_cast hpos
  refine ⟨?_, ?_, hmatch, hlen⟩
  · exact div_nonneg (Nat.cast_nonneg _) (Nat.cast_nonneg _)
  · exact (div_le_one hpos').mpr (by exact_mod_cast hle)

/-- Witness for C2 on a one-batch pass with one correct and one
incorrect prediction. -/
theorem evalPass_accuracy_witness :
    runEvaluatePass ⟨0, 0, 0, 0, [], []⟩ [evalBatchEx2] = some evalLogsEx2
  ∧ 0 < evalLogsEx2.eval_example
  ∧ ((0 : Rat) ≤ (evalLogsEx2.eval_acc : Rat) / (evalLogsEx2.eval_example : Rat)
     ∧ (evalLogsEx2.eval_acc : Rat) / (evalLogsEx2.eval_example : Rat) ≤ 1
     ∧ evalLogsEx2.eval_acc
         = matchCount ((evalLogsEx2.logits.flatten).map argmaxList)
             (evalLogsEx2.labels.flatten)
     ∧ evalLogsEx2.eval_example = (evalLogsEx2.labels.flatten).length) := by
  have hok : batchOk evalBatchEx2 = true := by decide
  have hm : matchCount (evalBatchEx2.logits.map argmaxList) evalBatchEx2.labelIds = 1 := by
    decide
  have hrun : runEvaluatePass ⟨0, 0, 0, 0, [], []⟩ [evalBatchEx2]
      = some evalLogsEx2 := by
    simp only [runEvaluatePass, List.foldlM_cons, List.foldlM_nil,
      onEvaluateBeginRecord, onEvaluateStepEnd, hok, if_true, hm]
    simp [evalBatchEx2, evalLogsEx2]
  exact ⟨hrun, by decide,
    evalPass_accuracy ⟨0, 0, 0, 0, [], []⟩ [evalBatchEx2] evalLogsEx2 hrun (by decide)⟩
